import Mathlib

/-!
Shallow embedding of the image-processing pipeline of the IRS repository
(src/main.rs): split geometry, zero-padded sequence naming, the batch
scheduler's control flow, sequential id assignment with reorder-by-swap,
the hand-rolled base64 encoder, and the JFIF APP0 density patcher.
External effects (the `image` codec crate, the filesystem) enter as
explicit parameters or as the documented clamping arithmetic of the
library call being used.
-/

namespace IRS

/-! ## Image splitter geometry (process_single_image) -/

/-- Dimensions produced by the image crate's `crop_imm(x, y, w, h)` on an
image of size `iw × ih`: the crate clamps the rectangle to the image
bounds (`x := min x iw`, `width := min w (iw - x)`, and likewise
vertically), so only the resulting width and height are modelled. -/
def cropDims (iw ih x y w h : Nat) : Nat × Nat :=
  (min w (iw - min x iw), min h (ih - min y ih))

/-- Split geometry of `process_single_image`: `half_width = width / 2`,
left half `crop_imm(0, 0, half_width, height)`, right half
`crop_imm(half_width, 0, half_width, height)` — the width argument of the
right crop in the source is `half_width`, not `width - half_width`. -/
def splitDims (width height : Nat) : (Nat × Nat) × (Nat × Nat) :=
  let half_width := width / 2
  (cropDims width height 0 0 half_width height,
   cropDims width height half_width 0 half_width height)

/-- Split geometry as the specification words it: left
`crop(0,0,W/2,H)`, right `crop(W/2,0,W-W/2,H)`. Stated only to be
compared against `splitDims`, which follows the source. -/
def splitDimsSpec (width height : Nat) : (Nat × Nat) × (Nat × Nat) :=
  (cropDims width height 0 0 (width / 2) height,
   cropDims width height (width / 2) 0 (width - width / 2) height)

/-! ## Sequence numbering and file names (process_images_sync workers) -/

/-- Zero-padding of `pad_number`, i.e. Rust `format!("{:02}", num)`:
decimal digits, left-padded with `0` to a minimum width of two. -/
def pad_number (num : Nat) : String :=
  if num < 10 then "0" ++ toString num else toString num

/-- Output file names of `process_single_image` for one sequence number:
`<pad>_1.jpg` and `<pad>_2.jpg`. -/
def halfFileNames (sequence_num : Nat) : String × String :=
  (pad_number sequence_num ++ "_1.jpg", pad_number sequence_num ++ "_2.jpg")

/-- Partition into contiguous chunks of three, mirroring
`images_arc.chunks(3)`: every chunk but possibly the last has exactly
three items, the last is the nonempty remainder. -/
def chunks3 {α : Type} : List α → List (List α)
  | [] => []
  | [a] => [[a]]
  | [a, b] => [[a, b]]
  | a :: b :: c :: rest => [a, b, c] :: chunks3 rest

/-- Sequence-number assignment of the scheduler loop: each chunk is
paired with its `start_num` (the running `image_num`, which begins at the
given value and grows by the chunk length), and inside a chunk the item
at `idx` receives `start_num + idx`. -/
def assignSeq {α : Type} (start : Nat) : List (List α) → List (Nat × α)
  | [] => []
  | c :: cs => (c.enum.map fun p => (start + p.1, p.2)) ++ assignSeq (start + c.length) cs

/-- Sequence numbers as `process_images_sync` computes them: chunk the
items by three and assign starting from 1. -/
def scheduledSeq {α : Type} (items : List α) : List (Nat × α) :=
  assignSeq 1 (chunks3 items)

/-! ## Batch scheduler control flow (process_images_sync)

The filesystem is external: `mkdirOk` is the outcome of
`std::fs::create_dir_all` on `<save_folder>/SPL`, and `procOk item` the
outcome of `process_single_image` for one item. The model returns the
job result together with the list of success/failure tokens the workers
put on the channel. -/

/-- Name of the fixed output subdirectory created under the destination
root by `process_images_sync`. -/
def splFolderName : String := "SPL"

/-- Control flow of `process_images_sync`: if directory creation fails
the job aborts with an error string before any worker is dispatched
(no tokens); otherwise every item is processed, each producing one
success/failure token, and the result is the total item count. -/
def process_images_sync {α : Type} (mkdirOk : Bool) (procOk : α → Bool)
    (items : List α) : Except String Nat × List Bool :=
  if mkdirOk then
    (Except.ok items.length, items.map procOk)
  else
    (Except.error "Failed to create output folder", [])

/-! ## Item loading and reordering (open_files, ImageCard) -/

/-- One loaded image, mirroring the `ImageItem` struct. -/
structure ImageItem where
  id : Nat
  path : String
  thumbnail_base64 : String
  deriving Repr, DecidableEq

/-- Loading loop of `open_files`: `id` starts at 0 and is incremented
only when `create_thumbnail` succeeds (`some thumb`); a failing file is
skipped without consuming an id. -/
def loadItems : Nat → List (String × Option String) → List ImageItem
  | _, [] => []
  | id, (p, some t) :: rest => ⟨id, p, t⟩ :: loadItems (id + 1) rest
  | id, (_, none) :: rest => loadItems id rest

/-- The ordered collection produced by `open_files` from the picked
paths and their thumbnail outcomes. -/
def open_files (files : List (String × Option String)) : List ImageItem :=
  loadItems 0 files

/-- Reordering primitive used by every move/drag handler of `ImageCard`:
`Vec::swap` of two in-bounds positions, identity otherwise (the handlers
guard the bounds before calling it). -/
def swapItems {α : Type} (l : List α) (i j : Nat) : List α :=
  if h : i < l.length ∧ j < l.length then
    (l.set i (l.get ⟨j, h.2⟩)).set j (l.get ⟨i, h.1⟩)
  else l

/-! ## Base64 encoder (encode_to_base64)

Bytes are naturals below 256. The Rust `(b1 << 16) | (b2 << 8) | b3` on
`u32` with bytes below 256 is the exact sum `b1*2^16 + b2*2^8 + b3`
(disjoint bit ranges, no overflow in 32 bits), and `(n >> k) & 63` is
`n / 2^k % 64`; the embedding uses the arithmetic forms. -/

/-- The 64-character alphabet `TABLE` of `encode_to_base64`. -/
def b64Table : List Char :=
  "ABCDEFGHIJKLMNOPQRSTUVWXYZabcdefghijklmnopqrstuvwxyz0123456789+/".data

/-- Character pushed for a six-bit index: `TABLE[idx] as char`. The
index is always below 64 in the source (it is masked with 63). -/
def b64Char (idx : Nat) : Char := b64Table.getD idx 'A'

/-- The chunk loop of `encode_to_base64` over `data.chunks(3)`: a full
chunk emits four alphabet characters; a 2-byte final chunk emits three
and one `=`; a 1-byte final chunk emits two and two `=` (missing bytes
read as 0 via `unwrap_or(0)`). -/
def encodeChunks : List Nat → List Char
  | [] => []
  | [b1] =>
    let n := b1 * 2 ^ 16
    [b64Char (n / 2 ^ 18 % 64), b64Char (n / 2 ^ 12 % 64), '=', '=']
  | [b1, b2] =>
    let n := b1 * 2 ^ 16 + b2 * 2 ^ 8
    [b64Char (n / 2 ^ 18 % 64), b64Char (n / 2 ^ 12 % 64),
     b64Char (n / 2 ^ 6 % 64), '=']
  | b1 :: b2 :: b3 :: rest =>
    let n := b1 * 2 ^ 16 + b2 * 2 ^ 8 + b3
    b64Char (n / 2 ^ 18 % 64) :: b64Char (n / 2 ^ 12 % 64) ::
    b64Char (n / 2 ^ 6 % 64) :: b64Char (n % 64) :: encodeChunks rest

/-- `encode_to_base64` itself: the concatenation of the chunk output as
a string (the Rust builds it by pushing chars into a `String`). -/
def encode_to_base64 (data : List Nat) : String := String.mk (encodeChunks data)

/-- Standard base64 character value: inverse of the standard alphabet
(`A`–`Z` ↦ 0–25, `a`–`z` ↦ 26–51, `0`–`9` ↦ 52–61, `+` ↦ 62, `/` ↦ 63).
Part of the reference decoder, not of the repository. -/
def b64Value (c : Char) : Nat :=
  let n := c.toNat
  if 65 ≤ n ∧ n ≤ 90 then n - 65
  else if 97 ≤ n ∧ n ≤ 122 then n - 97 + 26
  else if 48 ≤ n ∧ n ≤ 57 then n - 48 + 52
  else if c = '+' then 62
  else if c = '/' then 63
  else 0

/-- Standard base64 decoder on groups of four characters, honouring the
`=` padding convention: `xx==` yields one byte, `xxx=` two, `xxxx` three
and continues. The reference against which the encoder is checked. -/
def decodeB64 : List Char → List Nat
  | c1 :: c2 :: c3 :: c4 :: rest =>
    if c3 = '=' then [b64Value c1 * 4 + b64Value c2 / 16]
    else if c4 = '=' then
      [b64Value c1 * 4 + b64Value c2 / 16,
       b64Value c2 % 16 * 16 + b64Value c3 / 4]
    else
      (b64Value c1 * 4 + b64Value c2 / 16) ::
      (b64Value c2 % 16 * 16 + b64Value c3 / 4) ::
      (b64Value c3 % 4 * 64 + b64Value c4) :: decodeB64 rest
  | _ => []

/-! ## JFIF density patcher (set_jpeg_dpi)

A JPEG buffer is a list of byte values. The marker walk is embedded
with an explicit iteration budget that decreases structurally; each loop
pass advances the offset by at least 4, so a budget of `buf.length`
passes is always enough (proved below as fuel irrelevance), and the
budget-equipped function computes by evaluation. Reads use `getD _ 0`,
matching the source's `get(..).copied().unwrap_or(0)` and its
bounds-guarded direct indexing. -/

/-- Why the marker walk of `set_jpeg_dpi` ended without patching. -/
inductive StopReason where
  | sos : StopReason
  | nonMarker : StopReason
  | badLen : StopReason
  | outOfBounds : StopReason
  deriving Repr, DecidableEq

/-- Outcome of the marker walk: either the offset of the APP0/JFIF
segment to patch in place, or a stop reason. -/
inductive WalkResult where
  | patch : Nat → WalkResult
  | stop : StopReason → WalkResult
  deriving Repr, DecidableEq

/-- One guard of the walk: position `i` starts an APP0 segment whose
payload begins with `"JFIF\0"` and whose density fields are inside the
buffer (`i + 15 < buf.len()` in the source). -/
def jfifPatchable (buf : List Nat) (i : Nat) : Prop :=
  i + 9 ≤ buf.length ∧
  buf.getD (i + 4) 0 = 74 ∧ buf.getD (i + 5) 0 = 70 ∧
  buf.getD (i + 6) 0 = 73 ∧ buf.getD (i + 7) 0 = 70 ∧
  buf.getD (i + 8) 0 = 0 ∧ i + 15 < buf.length

instance (buf : List Nat) (i : Nat) : Decidable (jfifPatchable buf i) := by
  unfold jfifPatchable; infer_instance

/-- The `while` loop of `set_jpeg_dpi` with an explicit pass budget:
while `i + 4 <= buf.len()`, stop on a non-`0xFF` byte, stop on the
Start-Of-Scan marker `0xDA`, stop on a segment length below 2, patch at
the first APP0 segment with a `"JFIF\0"` payload whose fields fit, and
otherwise advance by `2 + length`. -/
def walkAux (buf : List Nat) : Nat → Nat → WalkResult
  | 0, _ => WalkResult.stop StopReason.outOfBounds
  | fuel + 1, i =>
    if buf.length < i + 4 then WalkResult.stop StopReason.outOfBounds
    else if buf.getD i 0 ≠ 255 then WalkResult.stop StopReason.nonMarker
    else if buf.getD (i + 1) 0 = 218 then WalkResult.stop StopReason.sos
    else
      let segLen := buf.getD (i + 2) 0 * 256 + buf.getD (i + 3) 0
      if segLen < 2 then WalkResult.stop StopReason.badLen
      else if buf.getD (i + 1) 0 = 224 ∧ jfifPatchable buf i then WalkResult.patch i
      else walkAux buf fuel (i + 2 + segLen)

/-- The marker walk from a given offset, with the always-sufficient
budget of one pass per buffer byte. -/
def walk (buf : List Nat) (i : Nat) : WalkResult := walkAux buf buf.length i

/-- In-place patch of `set_jpeg_dpi` at segment offset `i`: units byte
(offset `i+11`) set to 1, X-density (`i+12..13`) and Y-density
(`i+14..15`) set to the big-endian DPI (`(dpi >> 8) as u8` and
`(dpi & 0xFF) as u8`). -/
def patchAt (buf : List Nat) (i dpi : Nat) : List Nat :=
  ((((buf.set (i + 11) 1).set (i + 12) (dpi / 256 % 256)).set
      (i + 13) (dpi % 256)).set (i + 14) (dpi / 256 % 256)).set
    (i + 15) (dpi % 256)

/-- The synthesized minimal APP0/JFIF segment of `set_jpeg_dpi`:
marker `FF E0`, length 16, identifier `"JFIF\0"`, version 1.2, units 1
(dots per inch), X- and Y-density the big-endian DPI, zero-sized
thumbnail — 18 bytes in all. -/
def app0Segment (dpi : Nat) : List Nat :=
  [255, 224, 0, 16, 74, 70, 73, 70, 0, 1, 2, 1,
   dpi / 256 % 256, dpi % 256, dpi / 256 % 256, dpi % 256, 0, 0]

/-- The splice of `set_jpeg_dpi`: insert the synthesized segment at
offset 2, immediately after the Start-Of-Image marker. -/
def spliceApp0 (buf : List Nat) (dpi : Nat) : List Nat :=
  buf.take 2 ++ app0Segment dpi ++ buf.drop 2

/-- `set_jpeg_dpi`: reject buffers shorter than 4 bytes or not starting
`FF D8`; otherwise walk the markers from offset 2 and either patch the
first qualifying APP0/JFIF segment in place or splice a fresh segment in
after the Start-Of-Image marker. -/
def set_jpeg_dpi (buf : List Nat) (dpi : Nat) : Except String (List Nat) :=
  if buf.length < 4 ∨ buf.getD 0 0 ≠ 255 ∨ buf.getD 1 0 ≠ 216 then
    Except.error "Not a valid JPEG"
  else
    match walk buf 2 with
    | WalkResult.patch i => Except.ok (patchAt buf i dpi)
    | WalkResult.stop _ => Except.ok (spliceApp0 buf dpi)

/-- Write phase of `save_with_dpi`, as a function of the in-memory JPEG
buffer the external encoder produced: the bytes written to the output
file, or `none` when `set_jpeg_dpi` failed and the `?` operator
propagated the error before `std::fs::write` was reached. -/
def save_with_dpi (jpgBuf : List Nat) : Option (List Nat) :=
  match set_jpeg_dpi jpgBuf 300 with
  | Except.ok patched => some patched
  | Except.error _ => none

/-! ## Helper lemmas -/

lemma enum_map_add {α : Type} (c : List α) (s : Nat) :
    c.enum.map (fun p => (s + p.1, p.2)) = c.enumFrom s := by
  induction c generalizing s with
  | nil => rfl
  | cons a t ih =>
    rw [List.enum_cons', List.enumFrom_cons, List.map_cons, List.map_map]
    refine congrArg₂ _ (by simp) ?_
    rw [← ih (s + 1)]
    refine congrArg₂ _ ?_ rfl
    funext p
    simp [Prod.map]
    omega

theorem assignSeq_chunks3 {α : Type} :
    ∀ (l : List α) (s : Nat), assignSeq s (chunks3 l) = l.enumFrom s
  | [], _ => by simp [chunks3, assignSeq]
  | [a], s => by
    simp [chunks3, assignSeq, enum_map_add]
  | [a, b], s => by
    simp [chunks3, assignSeq, enum_map_add]
  | a :: b :: c :: rest, s => by
    rw [chunks3, assignSeq, enum_map_add, assignSeq_chunks3 rest]
    simp [List.enumFrom_cons]
termination_by l _ => l.length

lemma loadItems_map_id :
    ∀ (files : List (String × Option String)) (n : Nat),
      (loadItems n files).map ImageItem.id
        = List.range' n (files.countP fun f => f.2.isSome)
  | [], _ => rfl
  | (p, some t) :: rest, n => by
    rw [loadItems, List.map_cons, loadItems_map_id rest (n + 1)]
    simp only [List.countP_cons, Option.isSome_some, if_pos]
    rfl
  | (p, none) :: rest, n => by
    rw [loadItems, loadItems_map_id rest n]
    simp [List.countP_cons]

lemma get_cons_set_perm {α : Type} :
    ∀ (t : List α) (m : Nat) (h : m < t.length) (x : α),
      List.Perm (t.get ⟨m, h⟩ :: t.set m x) (x :: t)
  | a :: t, 0, _, x => List.Perm.swap x a t
  | a :: t, m + 1, h, x => by
    have h' : m < t.length := by simpa using h
    have e : (a :: t).get ⟨m + 1, h⟩ :: (a :: t).set (m + 1) x
        = t.get ⟨m, h'⟩ :: a :: t.set m x := by simp
    rw [e]
    exact (List.Perm.swap _ _ _).trans
      (((get_cons_set_perm t m h' x).cons a).trans (List.Perm.swap _ _ _))

lemma set_set_perm {α : Type} :
    ∀ (l : List α) (i j : Nat) (hi : i < l.length) (hj : j < l.length),
      List.Perm ((l.set i (l.get ⟨j, hj⟩)).set j (l.get ⟨i, hi⟩)) l
  | a :: t, 0, 0, _, _ => by simp
  | a :: t, 0, j + 1, hi, hj => by
    have hj' : j < t.length := by simpa using hj
    have : ((a :: t).set 0 ((a :: t).get ⟨j + 1, hj⟩)).set (j + 1) ((a :: t).get ⟨0, hi⟩)
        = t.get ⟨j, hj'⟩ :: t.set j a := by simp
    rw [this]
    exact get_cons_set_perm t j hj' a
  | a :: t, i + 1, 0, hi, hj => by
    have hi' : i < t.length := by simpa using hi
    have : ((a :: t).set (i + 1) ((a :: t).get ⟨0, hj⟩)).set 0 ((a :: t).get ⟨i + 1, hi⟩)
        = t.get ⟨i, hi'⟩ :: t.set i a := by simp
    rw [this]
    exact get_cons_set_perm t i hi' a
  | a :: t, i + 1, j + 1, hi, hj => by
    have hi' : i < t.length := by simpa using hi
    have hj' : j < t.length := by simpa using hj
    have : ((a :: t).set (i + 1) ((a :: t).get ⟨j + 1, hj⟩)).set (j + 1) ((a :: t).get ⟨i + 1, hi⟩)
        = a :: (t.set i (t.get ⟨j, hj'⟩)).set j (t.get ⟨i, hi'⟩) := by simp
    rw [this]
    exact (set_set_perm t i j hi' hj').cons a

lemma swapItems_perm {α : Type} (l : List α) (i j : Nat) :
    List.Perm (swapItems l i j) l := by
  unfold swapItems
  split
  · next h => exact set_set_perm l i j h.1 h.2
  · exact List.Perm.refl l

lemma b64Value_b64Char : ∀ k, k < 64 → b64Value (b64Char k) = k := by decide

lemma b64Char_ne_pad : ∀ k, k < 64 → b64Char k ≠ '=' := by decide

lemma b64Char_mem : ∀ k, k < 64 → b64Char k ∈ b64Table := by decide

theorem encodeChunks_spec :
    ∀ (data : List Nat), (∀ b ∈ data, b < 256) →
      decodeB64 (encodeChunks data) = data ∧
      (encodeChunks data).length = 4 * ((data.length + 2) / 3) ∧
      (∀ c ∈ encodeChunks data, c ∈ b64Table ∨ c = '=') ∧
      ∃ core, (∀ c ∈ core, c ∈ b64Table ∧ c ≠ '=') ∧
        encodeChunks data = core ++ List.replicate ((3 - data.length % 3) % 3) '='
  | [], _ =>
    ⟨rfl, rfl, by simp [encodeChunks], [], by simp, by simp [encodeChunks]⟩
  | [b1], h => by
    have hb1 : b1 < 256 := h b1 (by simp)
    have hk1 : b1 * 2 ^ 16 / 2 ^ 18 % 64 < 64 := Nat.mod_lt _ (by norm_num)
    have hk2 : b1 * 2 ^ 16 / 2 ^ 12 % 64 < 64 := Nat.mod_lt _ (by norm_num)
    refine ⟨?_, by simp [encodeChunks], ?_, [b64Char (b1 * 2 ^ 16 / 2 ^ 18 % 64),
        b64Char (b1 * 2 ^ 16 / 2 ^ 12 % 64)], ?_, by simp [encodeChunks]⟩
    · simp only [encodeChunks, decodeB64, b64Value_b64Char _ hk1, b64Value_b64Char _ hk2,
        eq_self_iff_true, if_true, List.cons.injEq, and_true]
      simp only [show (2:Nat) ^ 18 = 262144 from rfl,
        show (2:Nat) ^ 16 = 65536 from rfl, show (2:Nat) ^ 12 = 4096 from rfl,
        show (2:Nat) ^ 8 = 256 from rfl, show (2:Nat) ^ 6 = 64 from rfl]
      omega
    · simp only [encodeChunks]
      intro c hc
      simp only [List.mem_cons, List.not_mem_nil, or_false] at hc
      rcases hc with rfl | rfl | rfl | rfl
      · exact Or.inl (b64Char_mem _ hk1)
      · exact Or.inl (b64Char_mem _ hk2)
      · exact Or.inr rfl
      · exact Or.inr rfl
    · intro c hc
      simp only [List.mem_cons, List.not_mem_nil, or_false] at hc
      rcases hc with rfl | rfl
      · exact ⟨b64Char_mem _ hk1, b64Char_ne_pad _ hk1⟩
      · exact ⟨b64Char_mem _ hk2, b64Char_ne_pad _ hk2⟩
  | [b1, b2], h => by
    have hb1 : b1 < 256 := h b1 (by simp)
    have hb2 : b2 < 256 := h b2 (by simp)
    have hk1 : (b1 * 2 ^ 16 + b2 * 2 ^ 8) / 2 ^ 18 % 64 < 64 := Nat.mod_lt _ (by norm_num)
    have hk2 : (b1 * 2 ^ 16 + b2 * 2 ^ 8) / 2 ^ 12 % 64 < 64 := Nat.mod_lt _ (by norm_num)
    have hk3 : (b1 * 2 ^ 16 + b2 * 2 ^ 8) / 2 ^ 6 % 64 < 64 := Nat.mod_lt _ (by norm_num)
    refine ⟨?_, by simp [encodeChunks], ?_, [b64Char ((b1 * 2 ^ 16 + b2 * 2 ^ 8) / 2 ^ 18 % 64),
        b64Char ((b1 * 2 ^ 16 + b2 * 2 ^ 8) / 2 ^ 12 % 64),
        b64Char ((b1 * 2 ^ 16 + b2 * 2 ^ 8) / 2 ^ 6 % 64)], ?_,
        by simp [encodeChunks]⟩
    · simp only [encodeChunks, decodeB64, b64Value_b64Char _ hk1, b64Value_b64Char _ hk2,
        b64Value_b64Char _ hk3, b64Char_ne_pad _ hk3, eq_self_iff_true, if_true,
        if_false, List.cons.injEq, and_true]
      simp only [show (2:Nat) ^ 18 = 262144 from rfl,
        show (2:Nat) ^ 16 = 65536 from rfl, show (2:Nat) ^ 12 = 4096 from rfl,
        show (2:Nat) ^ 8 = 256 from rfl, show (2:Nat) ^ 6 = 64 from rfl]
      omega
    · simp only [encodeChunks]
      intro c hc
      simp only [List.mem_cons, List.not_mem_nil, or_false] at hc
      rcases hc with rfl | rfl | rfl | rfl
      · exact Or.inl (b64Char_mem _ hk1)
      · exact Or.inl (b64Char_mem _ hk2)
      · exact Or.inl (b64Char_mem _ hk3)
      · exact Or.inr rfl
    · intro c hc
      simp only [List.mem_cons, List.not_mem_nil, or_false] at hc
      rcases hc with rfl | rfl | rfl
      · exact ⟨b64Char_mem _ hk1, b64Char_ne_pad _ hk1⟩
      · exact ⟨b64Char_mem _ hk2, b64Char_ne_pad _ hk2⟩
      · exact ⟨b64Char_mem _ hk3, b64Char_ne_pad _ hk3⟩
  | b1 :: b2 :: b3 :: rest, h => by
    have hb1 : b1 < 256 := h b1 (by simp)
    have hb2 : b2 < 256 := h b2 (by simp)
    have hb3 : b3 < 256 := h b3 (by simp)
    have hrest : ∀ b ∈ rest, b < 256 := fun b hb => h b (by simp [hb])
    obtain ⟨ihdec, ihlen, ihmem, core, hcore, hsplit⟩ := encodeChunks_spec rest hrest
    have hk1 : (b1 * 2 ^ 16 + b2 * 2 ^ 8 + b3) / 2 ^ 18 % 64 < 64 := Nat.mod_lt _ (by norm_num)
    have hk2 : (b1 * 2 ^ 16 + b2 * 2 ^ 8 + b3) / 2 ^ 12 % 64 < 64 := Nat.mod_lt _ (by norm_num)
    have hk3 : (b1 * 2 ^ 16 + b2 * 2 ^ 8 + b3) / 2 ^ 6 % 64 < 64 := Nat.mod_lt _ (by norm_num)
    have hk4 : (b1 * 2 ^ 16 + b2 * 2 ^ 8 + b3) % 64 < 64 := Nat.mod_lt _ (by norm_num)
    refine ⟨?_, ?_, ?_, b64Char ((b1 * 2 ^ 16 + b2 * 2 ^ 8 + b3) / 2 ^ 18 % 64) ::
        b64Char ((b1 * 2 ^ 16 + b2 * 2 ^ 8 + b3) / 2 ^ 12 % 64) ::
        b64Char ((b1 * 2 ^ 16 + b2 * 2 ^ 8 + b3) / 2 ^ 6 % 64) ::
        b64Char ((b1 * 2 ^ 16 + b2 * 2 ^ 8 + b3) % 64) :: core, ?_, ?_⟩
    · simp only [encodeChunks, decodeB64, b64Value_b64Char _ hk1, b64Value_b64Char _ hk2,
        b64Value_b64Char _ hk3, b64Value_b64Char _ hk4, b64Char_ne_pad _ hk3,
        b64Char_ne_pad _ hk4, eq_self_iff_true, if_true, if_false, ihdec,
        List.cons.injEq, and_true]
      simp only [show (2:Nat) ^ 18 = 262144 from rfl,
        show (2:Nat) ^ 16 = 65536 from rfl, show (2:Nat) ^ 12 = 4096 from rfl,
        show (2:Nat) ^ 8 = 256 from rfl, show (2:Nat) ^ 6 = 64 from rfl]
      omega
    · simp only [encodeChunks, List.length_cons, ihlen]
      omega
    · simp only [encodeChunks]
      intro c hc
      simp only [List.mem_cons] at hc
      rcases hc with rfl | rfl | rfl | rfl | hc
      · exact Or.inl (b64Char_mem _ hk1)
      · exact Or.inl (b64Char_mem _ hk2)
      · exact Or.inl (b64Char_mem _ hk3)
      · exact Or.inl (b64Char_mem _ hk4)
      · exact ihmem c hc
    · intro c hc
      simp only [List.mem_cons] at hc
      rcases hc with rfl | rfl | rfl | rfl | hc
      · exact ⟨b64Char_mem _ hk1, b64Char_ne_pad _ hk1⟩
      · exact ⟨b64Char_mem _ hk2, b64Char_ne_pad _ hk2⟩
      · exact ⟨b64Char_mem _ hk3, b64Char_ne_pad _ hk3⟩
      · exact ⟨b64Char_mem _ hk4, b64Char_ne_pad _ hk4⟩
      · exact hcore c hc
    · have hmod : (3 - (rest.length + 3) % 3) % 3 = (3 - rest.length % 3) % 3 := by omega
      simp only [encodeChunks, List.length_cons, List.cons_append, hsplit]
      refine congrArg _ (congrArg _ (congrArg _ (congrArg _ (congrArg _ ?_))))
      rw [show rest.length + 1 + 1 + 1 = rest.length + 3 from rfl, hmod]
termination_by data _ => data.length

/-! ## Claim theorems: split geometry, ordering, scheduler, ids -/

/-- C1, counterexample: for the odd width W = 3 (H = 1) the source's
split is NOT the claimed `crop(0,0,W/2,H)` / `crop(W/2,0,W-W/2,H)` pair:
both halves come out 1 pixel wide, their widths sum to 2 ≠ W, and the
left half is not one pixel narrower than the right. -/
theorem splitDims_odd_cex :
    splitDims 3 1 ≠ splitDimsSpec 3 1 ∧
    splitDims 3 1 = ((1, 1), (1, 1)) ∧
    (splitDims 3 1).1.1 + (splitDims 3 1).2.1 ≠ 3 ∧
    ¬ (splitDims 3 1).1.1 + 1 = (splitDims 3 1).2.1 := by
  refine ⟨by decide, by decide, by decide, by decide⟩

/-- C1, amended: both halves have height H and the same width W/2; the
right crop is requested with width `half_width`, so the widths sum to W
only for even W, and for odd W the sum is W − 1 (the rightmost source
column is dropped; the claimed geometry holds exactly when W is even). -/
theorem splitDims_geometry (W H : Nat) :
    splitDims W H = ((W / 2, H), (W / 2, H)) ∧
    (splitDims W H).1.1 + (splitDims W H).2.1 = W - W % 2 ∧
    (W % 2 = 0 → splitDims W H = splitDimsSpec W H) := by
  have h1 : splitDims W H = ((W / 2, H), (W / 2, H)) := by
    simp only [splitDims, cropDims, Prod.mk.injEq]
    refine ⟨⟨by omega, by omega⟩, by omega, by omega⟩
  refine ⟨h1, by rw [h1]; dsimp; omega, fun he => ?_⟩
  rw [h1]
  simp only [splitDimsSpec, cropDims, Prod.mk.injEq]
  refine ⟨⟨by omega, by omega⟩, by omega, by omega⟩

/-- C1 witness: at the even width 4 the amended geometry instantiates to
halves of width 2 and height 3 that agree with the spec's crops. -/
theorem splitDims_geometry_witness :
    splitDims 4 3 = ((2, 3), (2, 3)) ∧ splitDims 4 3 = splitDimsSpec 4 3 :=
  ⟨(splitDims_geometry 4 3).1.trans (by decide),
   (splitDims_geometry 4 3).2.2 (by decide)⟩

set_option maxRecDepth 4000

/-- C5: chunking by three and assigning each chunk the running start
(1 plus the lengths of all earlier chunks) numbers the item at 0-based
collection position i with the 1-based sequence number i + 1 — i.e. the
flattened assignment is `enumFrom 1` — independently of which chunk an
item lands in; `pad_number` pads to a minimum width of two and values of
100 or more print unpadded (no truncation). -/
theorem scheduler_ordering {α : Type} (items : List α) :
    scheduledSeq items = items.enumFrom 1 ∧
    (scheduledSeq items).map Prod.fst = List.range' 1 items.length ∧
    (scheduledSeq items).map Prod.snd = items ∧
    (∀ p ∈ scheduledSeq items,
      halfFileNames p.1 = (pad_number p.1 ++ "_1.jpg", pad_number p.1 ++ "_2.jpg")) ∧
    (∀ n, 100 ≤ n → pad_number n = toString n) ∧
    (∀ n, n < 100 → (pad_number n).length = 2) ∧
    (∀ n, n < 1000 → 100 ≤ n → (pad_number n).length = 3) := by
  have h1 : scheduledSeq items = items.enumFrom 1 := assignSeq_chunks3 items 1
  refine ⟨h1, ?_, ?_, fun p _ => rfl, ?_, by decide, by decide⟩
  · rw [h1]; exact List.enumFrom_map_fst 1 items
  · rw [h1]; exact List.enumFrom_map_snd 1 items
  · intro n hn
    unfold pad_number
    rw [if_neg (by omega)]

/-- C5 witness: seven items chunked as (3,3,1) are numbered 1..7 in
collection order, and the padding examples from the claim hold. -/
theorem scheduler_ordering_witness :
    scheduledSeq [10, 20, 30, 40, 50, 60, 70]
      = [(1, 10), (2, 20), (3, 30), (4, 40), (5, 50), (6, 60), (7, 70)] ∧
    pad_number 7 = "07" ∧ pad_number 100 = toString 100 :=
  ⟨(scheduler_ordering [10, 20, 30, 40, 50, 60, 70]).1.trans (by decide),
   by decide,
   (scheduler_ordering ([] : List Nat)).2.2.2.2.1 100 (by decide)⟩

/-- C6: the scheduler model returns the job-fatal error string exactly
when creating the SPL output directory fails, and in that case no worker
runs (no tokens are produced); when the directory is created the result
is the total item count, identical under any per-item outcomes. -/
theorem process_images_sync_spec {α : Type} (mkdirOk : Bool)
    (procOk procOk' : α → Bool) (items : List α) :
    ((process_images_sync mkdirOk procOk items).1
        = Except.error "Failed to create output folder" ↔ mkdirOk = false) ∧
    (mkdirOk = false → (process_images_sync mkdirOk procOk items).2 = []) ∧
    (mkdirOk = true →
      (process_images_sync mkdirOk procOk items).1 = Except.ok items.length) ∧
    (process_images_sync mkdirOk procOk items).1
      = (process_images_sync mkdirOk procOk' items).1 := by
  cases mkdirOk <;> simp [process_images_sync]

/-- C6 witness: with the directory created, three items of which one
fails still report the total count 3; with directory creation failing,
no tokens are produced. -/
theorem process_images_sync_spec_witness :
    (process_images_sync true (fun n : Nat => n ≠ 2) [1, 2, 3]).1 = Except.ok 3 ∧
    (process_images_sync false (fun _ : Nat => true) [1, 2, 3]).2 = [] :=
  ⟨by simpa using (process_images_sync_spec true (fun n : Nat => n ≠ 2)
        (fun _ => true) [1, 2, 3]).2.2.1 rfl,
   (process_images_sync_spec false (fun _ : Nat => true)
        (fun _ => true) [1, 2, 3]).2.1 rfl⟩

/-- C8: ids are assigned sequentially at load time — the loaded
collection's ids are exactly `0, 1, …, k−1` for the k successfully
decoded files, hence strictly increasing and without duplicates — and a
reorder swap only permutes positions, leaving the ids a permutation of
the same duplicate-free set. -/
theorem ids_invariant (files : List (String × Option String)) (i j : Nat) :
    (open_files files).map ImageItem.id
      = List.range' 0 (files.countP fun f => f.2.isSome) ∧
    ((open_files files).map ImageItem.id).Pairwise (· < ·) ∧
    ((open_files files).map ImageItem.id).Nodup ∧
    List.Perm ((swapItems (open_files files) i j).map ImageItem.id)
      ((open_files files).map ImageItem.id) ∧
    ((swapItems (open_files files) i j).map ImageItem.id).Nodup := by
  have h1 := loadItems_map_id files 0
  have hperm := (swapItems_perm (open_files files) i j).map ImageItem.id
  have hpw : ((open_files files).map ImageItem.id).Pairwise (· < ·) := by
    rw [open_files, h1]; exact List.pairwise_lt_range' ..
  refine ⟨h1, hpw, hpw.nodup, hperm, hperm.nodup_iff.mpr hpw.nodup⟩

/-- C7: the encoder emits 4 characters per 3-byte group over the
standard alphabet with `=` padding — no `=` when the length is divisible
by 3, two `=` for a 1-byte final group, one `=` for a 2-byte final group
(the count is `(3 - len mod 3) mod 3`, carried at the very end after a
pad-free core), the empty input encodes to the empty string — and a
standard base64 decoder maps the output back to the original bytes. -/
theorem encode_to_base64_roundtrip (data : List Nat) (h : ∀ b ∈ data, b < 256) :
    decodeB64 (encode_to_base64 data).data = data ∧
    (encode_to_base64 data).data.length = 4 * ((data.length + 2) / 3) ∧
    (∀ c ∈ (encode_to_base64 data).data, c ∈ b64Table ∨ c = '=') ∧
    (∃ core, (∀ c ∈ core, c ∈ b64Table ∧ c ≠ '=') ∧
      (encode_to_base64 data).data
        = core ++ List.replicate ((3 - data.length % 3) % 3) '=') ∧
    encode_to_base64 [] = "" :=
  have hs := encodeChunks_spec data h
  ⟨hs.1, hs.2.1, hs.2.2.1, hs.2.2.2, rfl⟩

/-- C7 witness: the four bytes 1,2,3,4 (length ≡ 1 mod 3) encode to
`AQIDBA==` — eight characters ending in exactly two `=` — and decode
back to the original bytes. -/
theorem encode_to_base64_roundtrip_witness :
    (∀ b ∈ [1, 2, 3, 4], b < 256) ∧
    decodeB64 (encode_to_base64 [1, 2, 3, 4]).data = [1, 2, 3, 4] ∧
    encode_to_base64 [1, 2, 3, 4] = "AQIDBA==" :=
  ⟨by decide, (encode_to_base64_roundtrip [1, 2, 3, 4] (by decide)).1, by decide⟩

/-! ## Walk lemmas for the density patcher -/

lemma getD_set_ne {α : Type} (l : List α) (n q : Nat) (a d : α) (h : n ≠ q) :
    (l.set n a).getD q d = l.getD q d := by
  simp [List.getD_eq_getElem?_getD, List.getElem?_set_ne h]

lemma set_of_getElem? {α : Type} (l : List α) (n : Nat) (a : α)
    (h : l[n]? = some a) : l.set n a = l := by
  induction l generalizing n with
  | nil => rfl
  | cons x t ih =>
    cases n with
    | zero => simp at h; simp [h]
    | succ m => simp at h ⊢; exact ih m h

lemma patchAt_length (buf : List Nat) (i dpi : Nat) :
    (patchAt buf i dpi).length = buf.length := by
  simp [patchAt]

lemma patchAt_getD_outside (buf : List Nat) (i dpi q : Nat)
    (h : q < i + 11 ∨ i + 15 < q) :
    (patchAt buf i dpi).getD q 0 = buf.getD q 0 := by
  unfold patchAt
  rw [getD_set_ne _ _ _ _ _ (by omega), getD_set_ne _ _ _ _ _ (by omega),
    getD_set_ne _ _ _ _ _ (by omega), getD_set_ne _ _ _ _ _ (by omega),
    getD_set_ne _ _ _ _ _ (by omega)]

lemma walkAux_patch_le :
    ∀ (fuel i p : Nat) (buf : List Nat),
      walkAux buf fuel i = WalkResult.patch p →
      i ≤ p ∧ p + 4 ≤ buf.length ∧ buf.getD p 0 = 255 ∧
      buf.getD (p + 1) 0 = 224 ∧ jfifPatchable buf p ∧
      2 ≤ buf.getD (p + 2) 0 * 256 + buf.getD (p + 3) 0
  | 0, i, p, buf, h => by simp [walkAux] at h
  | fuel + 1, i, p, buf, h => by
    simp only [walkAux] at h
    by_cases hC1 : buf.length < i + 4
    · rw [if_pos hC1] at h; simp at h
    rw [if_neg hC1] at h
    by_cases hC2 : buf.getD i 0 ≠ 255
    · rw [if_pos hC2] at h; simp at h
    rw [if_neg hC2] at h
    by_cases hC3 : buf.getD (i + 1) 0 = 218
    · rw [if_pos hC3] at h; simp at h
    rw [if_neg hC3] at h
    by_cases hC4 : buf.getD (i + 2) 0 * 256 + buf.getD (i + 3) 0 < 2
    · rw [if_pos hC4] at h; simp at h
    rw [if_neg hC4] at h
    by_cases hC5 : buf.getD (i + 1) 0 = 224 ∧ jfifPatchable buf i
    · rw [if_pos hC5] at h
      obtain rfl : i = p := by cases h; rfl
      push_neg at hC2
      exact ⟨le_refl _, by omega, hC2, hC5.1, hC5.2, by omega⟩
    · rw [if_neg hC5] at h
      have ih := walkAux_patch_le fuel _ p buf h
      have h1 := ih.1
      exact ⟨by omega, ih.2.1, ih.2.2.1, ih.2.2.2.1, ih.2.2.2.2.1, ih.2.2.2.2.2⟩

lemma walkAux_sos_len :
    ∀ (fuel i : Nat) (buf : List Nat),
      walkAux buf fuel i = WalkResult.stop StopReason.sos → i + 4 ≤ buf.length
  | 0, i, buf, h => by simp [walkAux] at h
  | fuel + 1, i, buf, h => by
    simp only [walkAux] at h
    by_cases hC1 : buf.length < i + 4
    · rw [if_pos hC1] at h; simp at h
    rw [if_neg hC1] at h
    omega

lemma walkAux_ext :
    ∀ (fuel i p : Nat) (buf buf' : List Nat),
      buf'.length = buf.length →
      (∀ q, q < p + 11 → buf'.getD q 0 = buf.getD q 0) →
      walkAux buf fuel i = WalkResult.patch p →
      walkAux buf' fuel i = WalkResult.patch p
  | 0, i, p, buf, buf', _, _, h => by simp [walkAux] at h
  | fuel + 1, i, p, buf, buf', hlen, hagree, h => by
    have inv := walkAux_patch_le (fuel + 1) i p buf h
    have hip : i ≤ p := inv.1
    simp only [walkAux] at h
    by_cases hC1 : buf.length < i + 4
    · rw [if_pos hC1] at h; simp at h
    rw [if_neg hC1] at h
    have e0 : buf'.getD i 0 = buf.getD i 0 := hagree i (by omega)
    have e1 : buf'.getD (i + 1) 0 = buf.getD (i + 1) 0 := hagree _ (by omega)
    have e2 : buf'.getD (i + 2) 0 = buf.getD (i + 2) 0 := hagree _ (by omega)
    have e3 : buf'.getD (i + 3) 0 = buf.getD (i + 3) 0 := hagree _ (by omega)
    simp only [walkAux, hlen, e0, e1, e2, e3]
    rw [if_neg hC1]
    by_cases hC2 : buf.getD i 0 ≠ 255
    · rw [if_pos hC2] at h; simp at h
    rw [if_neg hC2] at h ⊢
    by_cases hC3 : buf.getD (i + 1) 0 = 218
    · rw [if_pos hC3] at h; simp at h
    rw [if_neg hC3] at h ⊢
    by_cases hC4 : buf.getD (i + 2) 0 * 256 + buf.getD (i + 3) 0 < 2
    · rw [if_pos hC4] at h; simp at h
    rw [if_neg hC4] at h ⊢
    by_cases hC5 : buf.getD (i + 1) 0 = 224 ∧ jfifPatchable buf i
    · rw [if_pos hC5] at h
      obtain rfl : i = p := by cases h; rfl
      have ejf : jfifPatchable buf' i := by
        obtain ⟨j1, j2, j3, j4, j5, j6, j7⟩ := hC5.2
        exact ⟨by omega, by rw [hagree _ (by omega)]; exact j2,
          by rw [hagree _ (by omega)]; exact j3, by rw [hagree _ (by omega)]; exact j4,
          by rw [hagree _ (by omega)]; exact j5, by rw [hagree _ (by omega)]; exact j6,
          by omega⟩
      rw [if_pos ⟨hC5.1, ejf⟩]
    · rw [if_neg hC5] at h
      have inv2 := walkAux_patch_le fuel _ p buf h
      have hreach : i + 2 + (buf.getD (i + 2) 0 * 256 + buf.getD (i + 3) 0) ≤ p := inv2.1
      have ejf : jfifPatchable buf' i ↔ jfifPatchable buf i := by
        unfold jfifPatchable
        rw [hlen, hagree _ (by omega), hagree _ (by omega), hagree _ (by omega),
          hagree _ (by omega), hagree _ (by omega)]
      rw [if_neg (fun hcon => hC5 ⟨hcon.1, ejf.mp hcon.2⟩)]
      exact walkAux_ext fuel _ p buf buf' hlen hagree h

lemma walkAux_fuel :
    ∀ (f1 f2 i : Nat) (buf : List Nat),
      buf.length ≤ i + 4 * f1 → buf.length ≤ i + 4 * f2 →
      walkAux buf f1 i = walkAux buf f2 i
  | 0, f2, i, buf, h1, h2 => by
    cases f2 with
    | zero => rfl
    | succ g =>
      rw [walkAux, walkAux, if_pos (by omega)]
  | f + 1, f2, i, buf, h1, h2 => by
    cases f2 with
    | zero =>
      rw [walkAux, walkAux, if_pos (by omega)]
    | succ g =>
      by_cases hC1 : buf.length < i + 4
      · simp only [walkAux]; rw [if_pos hC1, if_pos hC1]
      simp only [walkAux]
      rw [if_neg hC1, if_neg hC1]
      by_cases hC2 : buf.getD i 0 ≠ 255
      · rw [if_pos hC2, if_pos hC2]
      rw [if_neg hC2, if_neg hC2]
      by_cases hC3 : buf.getD (i + 1) 0 = 218
      · rw [if_pos hC3, if_pos hC3]
      rw [if_neg hC3, if_neg hC3]
      by_cases hC4 : buf.getD (i + 2) 0 * 256 + buf.getD (i + 3) 0 < 2
      · rw [if_pos hC4, if_pos hC4]
      rw [if_neg hC4, if_neg hC4]
      by_cases hC5 : buf.getD (i + 1) 0 = 224 ∧ jfifPatchable buf i
      · rw [if_pos hC5, if_pos hC5]
      rw [if_neg hC5, if_neg hC5]
      exact walkAux_fuel f g _ buf (by omega) (by omega)

lemma walkAux_walk (fuel : Nat) (buf : List Nat)
    (h : buf.length ≤ 2 + 4 * fuel) : walkAux buf fuel 2 = walk buf 2 :=
  walkAux_fuel fuel buf.length 2 buf h (by omega)

lemma patchAt_patchAt (buf : List Nat) (p dpi : Nat) (hlen : p + 15 < buf.length) :
    patchAt (patchAt buf p dpi) p dpi = patchAt buf p dpi := by
  have l1 : (buf.set (p + 11) 1).length = buf.length := by simp
  have l2 : ((buf.set (p + 11) 1).set (p + 12) (dpi / 256 % 256)).length = buf.length := by simp
  have l3 : (((buf.set (p + 11) 1).set (p + 12) (dpi / 256 % 256)).set
      (p + 13) (dpi % 256)).length = buf.length := by simp
  have l4 : ((((buf.set (p + 11) 1).set (p + 12) (dpi / 256 % 256)).set
      (p + 13) (dpi % 256)).set (p + 14) (dpi / 256 % 256)).length = buf.length := by simp
  have h11 : (patchAt buf p dpi)[p + 11]? = some 1 := by
    unfold patchAt
    rw [List.getElem?_set_ne (by omega), List.getElem?_set_ne (by omega),
      List.getElem?_set_ne (by omega), List.getElem?_set_ne (by omega)]
    exact List.getElem?_set_eq_of_lt 1 (by omega)
  have h12 : (patchAt buf p dpi)[p + 12]? = some (dpi / 256 % 256) := by
    unfold patchAt
    rw [List.getElem?_set_ne (by omega), List.getElem?_set_ne (by omega),
      List.getElem?_set_ne (by omega)]
    exact List.getElem?_set_eq_of_lt _ (by rw [l1]; omega)
  have h13 : (patchAt buf p dpi)[p + 13]? = some (dpi % 256) := by
    unfold patchAt
    rw [List.getElem?_set_ne (by omega), List.getElem?_set_ne (by omega)]
    exact List.getElem?_set_eq_of_lt _ (by rw [l2]; omega)
  have h14 : (patchAt buf p dpi)[p + 14]? = some (dpi / 256 % 256) := by
    unfold patchAt
    rw [List.getElem?_set_ne (by omega)]
    exact List.getElem?_set_eq_of_lt _ (by rw [l3]; omega)
  have h15 : (patchAt buf p dpi)[p + 15]? = some (dpi % 256) := by
    unfold patchAt
    exact List.getElem?_set_eq_of_lt _ (by rw [l4]; omega)
  calc patchAt (patchAt buf p dpi) p dpi
      = patchAt buf p dpi := by
        rw [patchAt, set_of_getElem? _ _ _ h11, set_of_getElem? _ _ _ h12,
          set_of_getElem? _ _ _ h13, set_of_getElem? _ _ _ h14,
          set_of_getElem? _ _ _ h15]

lemma buf_decomp (buf : List Nat) (h4 : 4 ≤ buf.length)
    (h0 : buf.getD 0 0 = 255) (h1 : buf.getD 1 0 = 216) :
    ∃ rest, buf = 255 :: 216 :: rest ∧ 2 ≤ buf.length := by
  rcases buf with _ | ⟨b0, _ | ⟨b1, rest⟩⟩
  · simp at h4
  · simp at h4
  · simp only [List.getD_cons_zero] at h0
    simp only [List.getD_cons_succ, List.getD_cons_zero] at h1
    exact ⟨rest, by rw [h0, h1], by simp⟩

lemma splice_cons (dpi : Nat) (rest : List Nat) :
    spliceApp0 (255 :: 216 :: rest) dpi
      = 255 :: 216 :: (app0Segment dpi ++ rest) := by
  simp [spliceApp0]

lemma walk_splice (dpi : Nat) (rest : List Nat) :
    walk (255 :: 216 :: (app0Segment dpi ++ rest)) 2 = WalkResult.patch 2 := by
  have hl : (255 :: 216 :: (app0Segment dpi ++ rest)).length = 20 + rest.length := by
    simp [app0Segment]
    omega
  unfold walk
  rw [hl, show 20 + rest.length = (19 + rest.length) + 1 from by omega]
  rw [walkAux]
  rw [if_neg (by rw [hl]; omega)]
  have g2 : (255 :: 216 :: (app0Segment dpi ++ rest)).getD 2 0 = 255 := by
    simp [app0Segment]
  have g3 : (255 :: 216 :: (app0Segment dpi ++ rest)).getD 3 0 = 224 := by
    simp [app0Segment]
  have g4 : (255 :: 216 :: (app0Segment dpi ++ rest)).getD 4 0 = 0 := by
    simp [app0Segment]
  have g5 : (255 :: 216 :: (app0Segment dpi ++ rest)).getD 5 0 = 16 := by
    simp [app0Segment]
  rw [if_neg (by rw [g2]; omega)]
  rw [if_neg (by rw [g3]; omega)]
  simp only [g4, g5]
  rw [if_neg (by omega)]
  have hjf : jfifPatchable (255 :: 216 :: (app0Segment dpi ++ rest)) 2 := by
    unfold jfifPatchable
    refine ⟨by rw [hl]; omega, by simp [app0Segment], by simp [app0Segment],
      by simp [app0Segment], by simp [app0Segment], by simp [app0Segment],
      by rw [hl]; omega⟩
  rw [if_pos ⟨g3, hjf⟩]

lemma patch_splice (dpi : Nat) (rest : List Nat) :
    patchAt (255 :: 216 :: (app0Segment dpi ++ rest)) 2 dpi
      = 255 :: 216 :: (app0Segment dpi ++ rest) := by
  rw [patchAt, set_of_getElem? _ _ _ (by simp [app0Segment]),
    set_of_getElem? _ _ _ (by simp [app0Segment]),
    set_of_getElem? _ _ _ (by simp [app0Segment]),
    set_of_getElem? _ _ _ (by simp [app0Segment]),
    set_of_getElem? _ _ _ (by simp [app0Segment])]

lemma getD_set_self {α : Type} (l : List α) (n : Nat) (a d : α) (h : n < l.length) :
    (l.set n a).getD n d = a := by
  simp [List.getD_eq_getElem?_getD, List.getElem?_set_eq_of_lt a h]

lemma patchAt_getD_fields (buf : List Nat) (p dpi : Nat) (h : p + 15 < buf.length) :
    (patchAt buf p dpi).getD (p + 11) 0 = 1 ∧
    (patchAt buf p dpi).getD (p + 12) 0 = dpi / 256 % 256 ∧
    (patchAt buf p dpi).getD (p + 13) 0 = dpi % 256 ∧
    (patchAt buf p dpi).getD (p + 14) 0 = dpi / 256 % 256 ∧
    (patchAt buf p dpi).getD (p + 15) 0 = dpi % 256 := by
  unfold patchAt
  refine ⟨?_, ?_, ?_, ?_, ?_⟩
  · rw [getD_set_ne _ _ _ _ _ (by omega), getD_set_ne _ _ _ _ _ (by omega),
      getD_set_ne _ _ _ _ _ (by omega), getD_set_ne _ _ _ _ _ (by omega),
      getD_set_self _ _ _ _ (by omega)]
  · rw [getD_set_ne _ _ _ _ _ (by omega), getD_set_ne _ _ _ _ _ (by omega),
      getD_set_ne _ _ _ _ _ (by omega), getD_set_self _ _ _ _ (by simp; omega)]
  · rw [getD_set_ne _ _ _ _ _ (by omega), getD_set_ne _ _ _ _ _ (by omega),
      getD_set_self _ _ _ _ (by simp; omega)]
  · rw [getD_set_ne _ _ _ _ _ (by omega), getD_set_self _ _ _ _ (by simp; omega)]
  · rw [getD_set_self _ _ _ _ (by simp; omega)]

lemma spliceApp0_length (buf : List Nat) (dpi : Nat) (h : 2 ≤ buf.length) :
    (spliceApp0 buf dpi).length = buf.length + 18 := by
  simp [spliceApp0, app0Segment]
  omega

/-! ## Claim theorems: the density patcher -/

/-- C2, counterexample: a buffer that begins with the Start-Of-Image
marker and whose first walked segment is an APP0 marker with a payload
beginning `"JFIF\0"`, but which is truncated before the density fields:
`set_jpeg_dpi` does not patch it in place — it splices a fresh 18-byte
segment, growing the buffer, although the walk encountered a matching
APP0/JFIF segment. -/
theorem set_jpeg_dpi_truncated_app0_cex :
    ([255, 216, 255, 224, 0, 7, 74, 70, 73, 70, 0].getD 0 0 = 255 ∧
     [255, 216, 255, 224, 0, 7, 74, 70, 73, 70, 0].getD 1 0 = 216 ∧
     [255, 216, 255, 224, 0, 7, 74, 70, 73, 70, 0].getD 2 0 = 255 ∧
     [255, 216, 255, 224, 0, 7, 74, 70, 73, 70, 0].getD 3 0 = 224 ∧
     List.take 5 (List.drop 6 [255, 216, 255, 224, 0, 7, 74, 70, 73, 70, 0])
       = [74, 70, 73, 70, 0]) ∧
    set_jpeg_dpi [255, 216, 255, 224, 0, 7, 74, 70, 73, 70, 0] 300
      = Except.ok (spliceApp0 [255, 216, 255, 224, 0, 7, 74, 70, 73, 70, 0] 300) ∧
    (spliceApp0 [255, 216, 255, 224, 0, 7, 74, 70, 73, 70, 0] 300).length
      = [255, 216, 255, 224, 0, 7, 74, 70, 73, 70, 0].length + 18 :=
  ⟨by decide, rfl, by decide⟩

/-- C2, amended: when the walk finds an APP0 segment whose payload
begins with `"JFIF\0"` AND whose density fields lie inside the buffer
(`p + 15 < len` — a matching but truncated segment is skipped), the
function succeeds immediately with the buffer patched in place: same
length, units byte 1, X- and Y-density the big-endian DPI, and every
byte outside positions `p+11..p+15` unchanged (only this first matching
segment is touched). -/
theorem set_jpeg_dpi_patch_in_place (buf : List Nat) (dpi p : Nat)
    (h4 : 4 ≤ buf.length) (h0 : buf.getD 0 0 = 255) (h1 : buf.getD 1 0 = 216)
    (hwalk : walk buf 2 = WalkResult.patch p) :
    set_jpeg_dpi buf dpi = Except.ok (patchAt buf p dpi) ∧
    (patchAt buf p dpi).length = buf.length ∧
    (patchAt buf p dpi).getD (p + 11) 0 = 1 ∧
    (patchAt buf p dpi).getD (p + 12) 0 = dpi / 256 % 256 ∧
    (patchAt buf p dpi).getD (p + 13) 0 = dpi % 256 ∧
    (patchAt buf p dpi).getD (p + 14) 0 = dpi / 256 % 256 ∧
    (patchAt buf p dpi).getD (p + 15) 0 = dpi % 256 ∧
    (∀ q, q < p + 11 ∨ p + 15 < q →
      (patchAt buf p dpi).getD q 0 = buf.getD q 0) := by
  have hw' : walkAux buf buf.length 2 = WalkResult.patch p := hwalk
  have inv := walkAux_patch_le buf.length 2 p buf hw'
  have hp15 : p + 15 < buf.length := inv.2.2.2.2.1.2.2.2.2.2.2
  have fields := patchAt_getD_fields buf p dpi hp15
  refine ⟨?_, patchAt_length buf p dpi, fields.1, fields.2.1, fields.2.2.1,
    fields.2.2.2.1, fields.2.2.2.2, fun q hq => patchAt_getD_outside buf p dpi q hq⟩
  unfold set_jpeg_dpi
  rw [if_neg (by push_neg; exact ⟨by omega, h0, h1⟩), hwalk]

/-- C2 witness: a well-formed 20-byte JPEG header with a full APP0/JFIF
segment is patched in place at DPI 300 (bytes `01 2C` big-endian),
keeping its length. -/
theorem set_jpeg_dpi_patch_in_place_witness :
    set_jpeg_dpi [255, 216, 255, 224, 0, 16, 74, 70, 73, 70, 0, 1, 2, 0, 0, 72, 0, 72, 0, 0] 300
      = Except.ok (patchAt [255, 216, 255, 224, 0, 16, 74, 70, 73, 70, 0, 1, 2, 0, 0, 72, 0, 72, 0, 0] 2 300) ∧
    patchAt [255, 216, 255, 224, 0, 16, 74, 70, 73, 70, 0, 1, 2, 0, 0, 72, 0, 72, 0, 0] 2 300
      = [255, 216, 255, 224, 0, 16, 74, 70, 73, 70, 0, 1, 2, 1, 1, 44, 1, 44, 0, 0] :=
  ⟨(set_jpeg_dpi_patch_in_place
      [255, 216, 255, 224, 0, 16, 74, 70, 73, 70, 0, 1, 2, 0, 0, 72, 0, 72, 0, 0] 300 2
      (by decide) (by decide) (by decide) (by decide)).1,
   by decide⟩

/-- C3: if the buffer begins with the Start-Of-Image marker and the
walk reaches the Start-Of-Scan marker without patching, `set_jpeg_dpi`
splices the 18-byte synthesized APP0/JFIF segment in at offset 2: the
length grows by exactly 18, the first two bytes stay `FF D8`, bytes
2..19 of the result are the synthesized segment (units 1, X- and
Y-density the big-endian DPI, zero-sized thumbnail), and every original
byte from offset 2 on reappears shifted 18 positions later. -/
theorem set_jpeg_dpi_inserts_app0 (buf : List Nat) (dpi : Nat)
    (h0 : buf.getD 0 0 = 255) (h1 : buf.getD 1 0 = 216)
    (hwalk : walk buf 2 = WalkResult.stop StopReason.sos) :
    set_jpeg_dpi buf dpi = Except.ok (spliceApp0 buf dpi) ∧
    spliceApp0 buf dpi = buf.take 2 ++ app0Segment dpi ++ buf.drop 2 ∧
    (spliceApp0 buf dpi).length = buf.length + 18 ∧
    (spliceApp0 buf dpi).getD 0 0 = 255 ∧
    (spliceApp0 buf dpi).getD 1 0 = 216 ∧
    (∀ k, k < 18 → (spliceApp0 buf dpi).getD (2 + k) 0 = (app0Segment dpi).getD k 0) ∧
    (∀ q, 2 ≤ q → (spliceApp0 buf dpi).getD (q + 18) 0 = buf.getD q 0) ∧
    (app0Segment dpi).length = 18 ∧
    (app0Segment dpi).getD 11 0 = 1 ∧
    (app0Segment dpi).getD 12 0 = dpi / 256 % 256 ∧
    (app0Segment dpi).getD 13 0 = dpi % 256 ∧
    (app0Segment dpi).getD 14 0 = dpi / 256 % 256 ∧
    (app0Segment dpi).getD 15 0 = dpi % 256 ∧
    (app0Segment dpi).getD 16 0 = 0 ∧ (app0Segment dpi).getD 17 0 = 0 := by
  have h4 : 4 ≤ buf.length := by
    have := walkAux_sos_len buf.length 2 buf hwalk
    omega
  obtain ⟨rest, hb, -⟩ := buf_decomp buf h4 h0 h1
  subst hb
  refine ⟨?_, rfl, spliceApp0_length _ _ (by omega), ?_, ?_, ?_, ?_, rfl,
    rfl, rfl, rfl, rfl, rfl, rfl, rfl⟩
  · unfold set_jpeg_dpi
    rw [if_neg (by push_neg; exact ⟨by omega, h0, h1⟩), hwalk]
  · rw [splice_cons]; rfl
  · rw [splice_cons]; rfl
  · intro k hk
    rw [splice_cons]
    show (255 :: 216 :: (app0Segment dpi ++ rest)).getD (2 + k) 0 = _
    rw [show 2 + k = k + 2 from by omega]
    simp only [List.getD_cons_succ]
    rw [List.getD_append]
    simp [app0Segment]
    omega
  · intro q hq
    rw [splice_cons,
      show (255 :: 216 :: (app0Segment dpi ++ rest)) = ([255, 216] ++ app0Segment dpi) ++ rest from by simp,
      List.getD_append_right _ _ _ _ (by simp [app0Segment]; omega),
      show (255 :: 216 :: rest) = [255, 216] ++ rest from by simp,
      List.getD_append_right _ _ _ _ (by simp; omega)]
    congr 1

/-- C3 witness: the minimal header `FF D8 FF DA 00 00` has no APP0, so
the 18-byte segment is spliced in after the Start-Of-Image marker and
the buffer grows from 6 to 24 bytes. -/
theorem set_jpeg_dpi_inserts_app0_witness :
    walk [255, 216, 255, 218, 0, 0] 2 = WalkResult.stop StopReason.sos ∧
    set_jpeg_dpi [255, 216, 255, 218, 0, 0] 300
      = Except.ok (spliceApp0 [255, 216, 255, 218, 0, 0] 300) ∧
    (spliceApp0 [255, 216, 255, 218, 0, 0] 300).length = 24 :=
  ⟨by decide,
   (set_jpeg_dpi_inserts_app0 [255, 216, 255, 218, 0, 0] 300
      (by decide) (by decide) (by decide)).1,
   by decide⟩

lemma set_jpeg_dpi_error_cond (buf : List Nat) (dpi : Nat) :
    (∃ e, set_jpeg_dpi buf dpi = Except.error e)
      ↔ (buf.length < 4 ∨ buf.getD 0 0 ≠ 255 ∨ buf.getD 1 0 ≠ 216) := by
  unfold set_jpeg_dpi
  by_cases hcond : buf.length < 4 ∨ buf.getD 0 0 ≠ 255 ∨ buf.getD 1 0 ≠ 216
  · rw [if_pos hcond]
    exact ⟨fun _ => hcond, fun _ => ⟨_, rfl⟩⟩
  · rw [if_neg hcond]
    cases hw : walk buf 2 with
    | patch p =>
      exact ⟨fun ⟨e, he⟩ => Except.noConfusion he, fun hc => absurd hc hcond⟩
    | stop r =>
      exact ⟨fun ⟨e, he⟩ => Except.noConfusion he, fun hc => absurd hc hcond⟩

/-- C4, counterexample: the two-byte buffer `FF D8` begins with the
Start-Of-Image marker, yet `set_jpeg_dpi` fails with the
invalid-container error (the source also requires at least 4 bytes), so
"for every buffer beginning with 0xFFD8 it succeeds" is false; the
caller model writes no file for it. -/
theorem set_jpeg_dpi_soi_cex :
    [255, 216].getD 0 0 = 255 ∧ [255, 216].getD 1 0 = 216 ∧
    set_jpeg_dpi [255, 216] 300 = Except.error "Not a valid JPEG" ∧
    save_with_dpi [255, 216] = none :=
  ⟨rfl, rfl, rfl, rfl⟩

/-- C4, amended: `set_jpeg_dpi` fails — always with the
invalid-container error — if and only if the buffer is shorter than
4 bytes or does not begin with `FF D8`; on exactly those buffers the
caller `save_with_dpi` writes no file. -/
theorem set_jpeg_dpi_error_iff (buf : List Nat) (dpi : Nat) :
    ((∃ e, set_jpeg_dpi buf dpi = Except.error e)
      ↔ (buf.length < 4 ∨ buf.getD 0 0 ≠ 255 ∨ buf.getD 1 0 ≠ 216)) ∧
    (∀ e, set_jpeg_dpi buf dpi = Except.error e → e = "Not a valid JPEG") ∧
    (save_with_dpi buf = none
      ↔ (buf.length < 4 ∨ buf.getD 0 0 ≠ 255 ∨ buf.getD 1 0 ≠ 216)) := by
  refine ⟨set_jpeg_dpi_error_cond buf dpi, ?_, ?_⟩
  · intro e he
    unfold set_jpeg_dpi at he
    by_cases hcond : buf.length < 4 ∨ buf.getD 0 0 ≠ 255 ∨ buf.getD 1 0 ≠ 216
    · rw [if_pos hcond] at he
      cases he; rfl
    · rw [if_neg hcond] at he
      cases hw : walk buf 2 <;> rw [hw] at he <;> exact Except.noConfusion he
  · unfold save_with_dpi
    cases hres : set_jpeg_dpi buf 300 with
    | ok out =>
      refine iff_of_false (by simp) (fun hc => ?_)
      obtain ⟨e, he⟩ := (set_jpeg_dpi_error_cond buf 300).mpr hc
      rw [hres] at he
      exact Except.noConfusion he
    | error e =>
      exact iff_of_true rfl ((set_jpeg_dpi_error_cond buf 300).mp ⟨e, hres⟩)

/-- C4 witness: the empty buffer does not begin with `FF D8`, so the
patcher reports an error and the caller writes no file. -/
theorem set_jpeg_dpi_error_iff_witness :
    (∃ e, set_jpeg_dpi [] 300 = Except.error e) ∧ save_with_dpi [] = none :=
  ⟨(set_jpeg_dpi_error_iff [] 300).1.mpr (by decide),
   (set_jpeg_dpi_error_iff [] 300).2.2.mpr (by decide)⟩

/-- C9: the marker walk terminates — its result is the same under any
iteration budget of at least one pass per 4 buffer bytes, because every
pass either stops or advances the offset by at least 4 — and on every
buffer `set_jpeg_dpi` returns a result: an error, or a buffer whose
length is the input length (in-place patch) or the input length plus 18
(splice); all byte reads in the embedding are total (`getD`). -/
theorem set_jpeg_dpi_total (buf : List Nat) (dpi fuel : Nat)
    (hfuel : buf.length ≤ 2 + 4 * fuel) :
    walkAux buf fuel 2 = walk buf 2 ∧
    ((∃ e, set_jpeg_dpi buf dpi = Except.error e) ∨
      ∃ out, set_jpeg_dpi buf dpi = Except.ok out ∧
        (out.length = buf.length ∨ out.length = buf.length + 18)) := by
  refine ⟨walkAux_walk fuel buf hfuel, ?_⟩
  unfold set_jpeg_dpi
  by_cases hcond : buf.length < 4 ∨ buf.getD 0 0 ≠ 255 ∨ buf.getD 1 0 ≠ 216
  · rw [if_pos hcond]
    exact Or.inl ⟨_, rfl⟩
  · rw [if_neg hcond]
    push_neg at hcond
    cases hw : walk buf 2 with
    | patch p =>
      exact Or.inr ⟨_, rfl, Or.inl (patchAt_length buf p dpi)⟩
    | stop r =>
      exact Or.inr ⟨_, rfl, Or.inr (spliceApp0_length buf dpi (by omega))⟩

/-- C9 witness: on the 6-byte header, budget 10 computes the same walk
result as the canonical budget, and the function returns the spliced
buffer. -/
theorem set_jpeg_dpi_total_witness :
    walkAux [255, 216, 255, 218, 0, 0] 10 2 = walk [255, 216, 255, 218, 0, 0] 2 ∧
    set_jpeg_dpi [255, 216, 255, 218, 0, 0] 300
      = Except.ok (spliceApp0 [255, 216, 255, 218, 0, 0] 300) :=
  ⟨(set_jpeg_dpi_total [255, 216, 255, 218, 0, 0] 300 10 (by decide)).1, rfl⟩

/-- C10: `set_jpeg_dpi` is idempotent for a fixed DPI: whenever it
succeeds with output `out`, running it again on `out` with the same DPI
succeeds and returns `out` unchanged — in the patch case the rerun
patches the same offset with the same bytes, in the splice case the
rerun finds the newly inserted segment at offset 2 and rewrites its
fields with the values they already hold. -/
theorem set_jpeg_dpi_idempotent (buf out : List Nat) (dpi : Nat)
    (h : set_jpeg_dpi buf dpi = Except.ok out) :
    set_jpeg_dpi out dpi = Except.ok out := by
  unfold set_jpeg_dpi at h
  by_cases hcond : buf.length < 4 ∨ buf.getD 0 0 ≠ 255 ∨ buf.getD 1 0 ≠ 216
  · rw [if_pos hcond] at h
    cases h
  rw [if_neg hcond] at h
  push_neg at hcond
  obtain ⟨hl4, h0, h1⟩ := hcond
  cases hw : walk buf 2 with
  | patch p =>
    rw [hw] at h
    cases h
    have hw' : walkAux buf buf.length 2 = WalkResult.patch p := hw
    have inv := walkAux_patch_le buf.length 2 p buf hw'
    have hp2 : 2 ≤ p := inv.1
    have hp15 : p + 15 < buf.length := inv.2.2.2.2.1.2.2.2.2.2.2
    have hg0 : (patchAt buf p dpi).getD 0 0 = 255 := by
      rw [patchAt_getD_outside _ _ _ _ (Or.inl (by omega))]; exact h0
    have hg1 : (patchAt buf p dpi).getD 1 0 = 216 := by
      rw [patchAt_getD_outside _ _ _ _ (Or.inl (by omega))]; exact h1
    have hst : walk (patchAt buf p dpi) 2 = WalkResult.patch p := by
      unfold walk
      rw [patchAt_length]
      exact walkAux_ext buf.length 2 p buf _ (patchAt_length buf p dpi)
        (fun q hq => patchAt_getD_outside buf p dpi q (Or.inl hq)) hw'
    unfold set_jpeg_dpi
    rw [if_neg (by push_neg; exact ⟨by rw [patchAt_length]; omega, hg0, hg1⟩)]
    simp only [hst, patchAt_patchAt buf p dpi hp15]
  | stop r =>
    rw [hw] at h
    cases h
    obtain ⟨rest, hb, -⟩ := buf_decomp buf (by omega) h0 h1
    subst hb
    rw [splice_cons]
    unfold set_jpeg_dpi
    rw [if_neg (by push_neg; exact ⟨by simp [app0Segment], rfl, rfl⟩)]
    simp only [walk_splice, patch_splice]

/-- C10 witness: applying the patcher to its own output on the 6-byte
header returns that output unchanged. -/
theorem set_jpeg_dpi_idempotent_witness :
    set_jpeg_dpi (spliceApp0 [255, 216, 255, 218, 0, 0] 300) 300
      = Except.ok (spliceApp0 [255, 216, 255, 218, 0, 0] 300) :=
  set_jpeg_dpi_idempotent [255, 216, 255, 218, 0, 0] _ 300 rfl

end IRS
